import Mathlib

/-!
Verification development for the swing-analyzer position-detection core.

The definitions below are a shallow embedding of the Python sources:
  * `tools/python-extractors/angle_utils.py` (geometry and angle profiles),
  * `tools/python-extractors/annotate_poses.py` (peak finding),
  * `tools/python-extractors/test_position_detection.py`
    (the `PositionDetector` streaming classifier and the evaluator).

Python floats are modelled by `ℚ` for all plain arithmetic (every float is a
rational number) and by `ℝ` for the trigonometric angle pipeline
(`acos`, `sqrt`); machine rounding is not modelled.  Python dicts with a
known key set become structures with `Option` fields, `dict.get(k, d)`
becomes a `match` with default, and the `try/except KeyError` blocks become
`match` on the `Option`-valued lookups.  Exceptions become `Except`.
-/

/-- A pose keypoint: `{x, y, z, score, name}` from the pose source.  Only
`x`, `y` and `name` are read by the code under verification, so `z` and
`score` are omitted. -/
structure Keypoint where
  name : Option String
  x : ℚ
  y : ℚ
deriving DecidableEq, Repr

/-- Key under which a keypoint is stored in the name map:
`kp.get("name", f"kp_{i}")` in `angle_utils.compute_angles`. -/
def kpKey (i : ℕ) (kp : Keypoint) : String :=
  match kp.name with
  | some n => n
  | none => "kp_" ++ toString i

/-- The MediaPipe BlazePose-33 positional fallback table
(`mediapipe_names` in `angle_utils.compute_angles`). -/
def mediapipeName (i : ℕ) : Option String :=
  match i with
  | 11 => some "left_shoulder"
  | 12 => some "right_shoulder"
  | 13 => some "left_elbow"
  | 14 => some "right_elbow"
  | 15 => some "left_wrist"
  | 16 => some "right_wrist"
  | 23 => some "left_hip"
  | 24 => some "right_hip"
  | 25 => some "left_knee"
  | 26 => some "right_knee"
  | 27 => some "left_ankle"
  | 28 => some "right_ankle"
  | _ => none

/-- Lookup in the name-keyed dict `{kp.get("name", f"kp_{i}"): kp}`.
Python dict comprehensions let later entries overwrite earlier ones, hence
the reverse search. -/
def kpLookupByName (kps : List Keypoint) (n : String) : Option Keypoint :=
  match (kps.enum.reverse.find? fun p => kpKey p.1 p.2 = n) with
  | some p => some p.2
  | none => none

/-- Lookup with the MediaPipe positional fallback
(`angle_utils.compute_angles`): the named entry takes precedence; a missing
name is filled from the fixed index table.  Each table index has a distinct
name, so the first matching index is the only one. -/
def kpLookup (kps : List Keypoint) (n : String) : Option Keypoint :=
  match kpLookupByName kps n with
  | some kp => some kp
  | none =>
    match (kps.enum.find? fun p => mediapipeName p.1 = some n) with
    | some p => some p.2
    | none => none

/-- `np.clip(c, -1, 1)`. -/
noncomputable def clip1 (c : ℝ) : ℝ := max (-1) (min c 1)

/-- `math.degrees(math.acos(np.clip(c, -1, 1)))`: degrees of the clipped
inverse cosine. -/
noncomputable def angleFromCos (c : ℝ) : ℝ :=
  Real.arccos (clip1 c) * 180 / Real.pi

/-- `angle_utils.calculate_angle(p1, p2, p3)`: the angle at `p2` formed by
`p1-p2-p3`, via
`acos(clip(dot(v1,v2) / (|v1|*|v2| + 1e-6), -1, 1))` in degrees. -/
noncomputable def calculate_angle (p1 p2 p3 : ℚ × ℚ) : ℝ :=
  let v1x : ℝ := (p1.1 : ℝ) - (p2.1 : ℝ)
  let v1y : ℝ := (p1.2 : ℝ) - (p2.2 : ℝ)
  let v2x : ℝ := (p3.1 : ℝ) - (p2.1 : ℝ)
  let v2y : ℝ := (p3.2 : ℝ) - (p2.2 : ℝ)
  angleFromCos ((v1x * v2x + v1y * v2y) /
    (Real.sqrt (v1x ^ 2 + v1y ^ 2) * Real.sqrt (v2x ^ 2 + v2y ^ 2) + 1 / 1000000))

/-- Python's `round(x, 2)` (two decimal places).  Python rounds ties to
even while `round` here rounds ties up; the claims under verification do
not depend on tie direction. -/
noncomputable def round2 (x : ℝ) : ℝ := ((round (100 * x) : ℤ) : ℝ) / 100

/-- Return dict of `angle_utils.compute_angles`: the success branch carries
all five keys, the degraded branch only the three zeroed ones, so `hipAngle`
and `kneeAngle` are optional. -/
structure AnglesStd where
  spineAngle : ℝ
  armToSpineAngle : ℝ
  armToVerticalAngle : ℝ
  hipAngle : Option ℝ := none
  kneeAngle : Option ℝ := none

/-- `angle_utils.compute_angles(keypoints)`.  A missing required landmark
(Python `KeyError`) yields the degraded all-zero profile; in real
arithmetic the `+1e-6` guards make every denominator positive, so no
`ZeroDivisionError` branch arises. -/
noncomputable def compute_angles (kps : List Keypoint) : AnglesStd :=
  match kpLookup kps "left_shoulder", kpLookup kps "right_shoulder",
      kpLookup kps "left_hip", kpLookup kps "right_hip",
      kpLookup kps "left_wrist", kpLookup kps "left_knee",
      kpLookup kps "left_ankle" with
  | some ls, some rs, some lh, some rh, some lw, some lk, some la =>
    let smx := (ls.x + rs.x) / 2
    let smy := (ls.y + rs.y) / 2
    let hmx := (lh.x + rh.x) / 2
    let hmy := (lh.y + rh.y) / 2
    -- spine vector (hip-mid to shoulder-mid); vertical is (0, -1), so
    -- dot(spine_vec, vertical) = -spine_vec.y and |vertical| = 1
    let svx := smx - hmx
    let svy := smy - hmy
    let spine_angle := angleFromCos
      ((-(svy : ℝ)) / (Real.sqrt ((svx : ℝ) ^ 2 + (svy : ℝ) ^ 2) + 1 / 1000000))
    -- arm vector (shoulder-mid to left wrist)
    let avx := lw.x - smx
    let avy := lw.y - smy
    let arm_to_vertical := angleFromCos
      ((-(avy : ℝ)) / (Real.sqrt ((avx : ℝ) ^ 2 + (avy : ℝ) ^ 2) + 1 / 1000000))
    let arm_to_spine := angleFromCos
      (((avx : ℝ) * (svx : ℝ) + (avy : ℝ) * (svy : ℝ)) /
        (Real.sqrt ((avx : ℝ) ^ 2 + (avy : ℝ) ^ 2) *
          Real.sqrt ((svx : ℝ) ^ 2 + (svy : ℝ) ^ 2) + 1 / 1000000))
    let hip_angle := calculate_angle (lk.x, lk.y) (lh.x, lh.y) (ls.x, ls.y)
    let knee_angle := calculate_angle (lh.x, lh.y) (lk.x, lk.y) (la.x, la.y)
    { spineAngle := round2 spine_angle
      armToSpineAngle := round2 arm_to_spine
      armToVerticalAngle := round2 arm_to_vertical
      hipAngle := some (round2 hip_angle)
      kneeAngle := some (round2 knee_angle) }
  | _, _, _, _, _, _, _ =>
    { spineAngle := 0, armToSpineAngle := 0, armToVerticalAngle := 0 }

/-- The list of angle values present in a `compute_angles` profile. -/
def profileValues (a : AnglesStd) : List ℝ :=
  [a.spineAngle, a.armToSpineAngle, a.armToVerticalAngle] ++
    (match a.hipAngle with | some h => [h] | none => []) ++
    (match a.kneeAngle with | some k => [k] | none => [])

/-- Return dict of `angle_utils.compute_wrist_heights`. -/
structure WristHeights where
  leftWristHeight : ℚ
  rightWristHeight : ℚ
  avgWristHeight : ℚ
deriving DecidableEq, Repr

/-- `angle_utils.compute_wrist_heights(keypoints)`: signed vertical offset
of each wrist from the shoulder midpoint ("up" positive), or `None` when a
required keypoint is missing.  This function builds its map by name only
(no positional fallback). -/
def compute_wrist_heights (kps : List Keypoint) : Option WristHeights :=
  match kpLookupByName kps "left_shoulder", kpLookupByName kps "right_shoulder",
      kpLookupByName kps "left_wrist", kpLookupByName kps "right_wrist" with
  | some ls, some rs, some lw, some rw =>
    let shoulder_mid_y := (ls.y + rs.y) / 2
    let left_height := shoulder_mid_y - lw.y
    let right_height := shoulder_mid_y - rw.y
    some { leftWristHeight := left_height
           rightWristHeight := right_height
           avgWristHeight := (left_height + right_height) / 2 }
  | _, _, _, _ => none

/-- The angles dict built by `test_position_detection.compute_angles_from_keypoints`
(and consumed by the detector's `_detect_*` methods).  Each key is present
only when the corresponding computation produced a truthy value, hence the
`Option` fields.  The numeric type is a parameter: `ℚ` for the detector
claims stated on stipulated angle values, `ℝ` for the composed pipeline. -/
structure Angles (α : Type) where
  spine : Option α := none
  armToVertical : Option α := none
  hip : Option α := none
  wristHeight : Option α := none
  avgWristHeight : Option α := none
deriving DecidableEq, Repr

/-- `test_position_detection.compute_angles_from_keypoints(keypoints)`:
filters the standard profile through Python truthiness (`if d.get(k):`), so
a zero angle — in particular the whole degraded profile — is dropped, and
merges in the wrist heights when available. -/
noncomputable def compute_angles_from_keypoints (kps : List Keypoint) : Angles ℝ :=
  let std := compute_angles kps
  let base : Angles ℝ :=
    { spine := if std.spineAngle ≠ 0 then some std.spineAngle else none
      armToVertical :=
        if std.armToVerticalAngle ≠ 0 then some std.armToVerticalAngle else none
      hip :=
        match std.hipAngle with
        | some h => if h ≠ 0 then some h else none
        | none => none }
  match compute_wrist_heights kps with
  | some w =>
    { base with
      wristHeight := some (w.leftWristHeight : ℝ)
      avgWristHeight := some (w.avgWristHeight : ℝ) }
  | none => base

/-- `angles.get("spine", 0)`. -/
def spineOf {α : Type} [Zero α] (a : Angles α) : α :=
  match a.spine with
  | some v => v
  | none => 0

/-- `angles.get("avgWristHeight", angles.get("wristHeight", 0))`. -/
def armHeightOf {α : Type} [Zero α] (a : Angles α) : α :=
  match a.avgWristHeight with
  | some v => v
  | none =>
    match a.wristHeight with
    | some v => v
    | none => 0

/-- `test_position_detection.DetectionResult`. -/
structure DetectionResult (α : Type) where
  frame_index : ℤ
  video_time : α
  detected_position : Option String
  confidence : α
  angles : Angles α
  is_arm_peak : Bool := false
  is_spine_peak : Bool := false
deriving DecidableEq, Repr

/-- `test_position_detection.GroundTruth`. -/
structure GroundTruth where
  frame_index : ℤ
  position : String
  notes : String := ""
deriving DecidableEq, Repr

/-- `test_position_detection.AlgorithmMetrics` (the stored counters; the
derived precision/recall/f1 properties are not needed by the claims).
`position_errors` entries are `(type, frame)` pairs. -/
structure AlgorithmMetrics where
  true_positives : ℕ := 0
  false_positives : ℕ := 0
  false_negatives : ℕ := 0
  total_frames : ℕ := 0
  position_errors : List (String × ℤ) := []
deriving DecidableEq, Repr

/-- Mutable state of `test_position_detection.PositionDetector`. -/
structure DetectorState (α : Type) where
  algorithm : String
  prev_arm_angle : α
  prev_spine_angle : α
  arm_angle_history : List α
  spine_angle_history : List α
  direction : String
  last_top_frame : ℤ
  last_bottom_frame : ℤ
deriving DecidableEq, Repr

namespace PositionDetector

variable {α : Type} [LinearOrderedField α]

/-- `PositionDetector.__init__(algorithm)`: stores the selector (without
validating it) and resets the state. -/
def init (algorithm : String) : DetectorState α :=
  { algorithm := algorithm
    prev_arm_angle := 0
    prev_spine_angle := 0
    arm_angle_history := []
    spine_angle_history := []
    direction := "unknown"
    last_top_frame := -999
    last_bottom_frame := -999 }

/-- `PositionDetector.reset()`: clears every history field, keeping the
selected algorithm. -/
def reset (s : DetectorState α) : DetectorState α := init s.algorithm

/-- `PositionDetector._detect_threshold(frame_index, video_time, angles)`:
stateless spine-angle banding. -/
def detect_threshold (frame_index : ℤ) (video_time : α) (angles : Angles α) :
    DetectionResult α :=
  let spine := spineOf angles
  let pc : Option String × α :=
    if spine < 25 then (some "top", 1 - spine / 25)
    else if spine > 60 then (some "bottom", min 1 ((spine - 60) / 30))
    else if spine < 45 then (some "release", 1 / 2)
    else (some "connect", 1 / 2)
  { frame_index := frame_index
    video_time := video_time
    detected_position := pc.1
    confidence := pc.2
    angles := angles }

/-- The arm history after a `_detect_peak` call: append the current arm
height, then truncate to the last `window * 2 = 10` samples when the bound
is exceeded. -/
def armHistAfter (s : DetectorState α) (angles : Angles α) : List α :=
  let window : ℕ := 5
  let l := s.arm_angle_history ++ [armHeightOf angles]
  if window * 2 < l.length then l.drop (l.length - window * 2) else l

/-- The spine history after a `_detect_peak` call.  The source guards the
truncation of both series by the length of the arm history alone. -/
def spineHistAfter (s : DetectorState α) (angles : Angles α) : List α :=
  let window : ℕ := 5
  let a := s.arm_angle_history ++ [armHeightOf angles]
  let l := s.spine_angle_history ++ [spineOf angles]
  if window * 2 < a.length then l.drop (l.length - window * 2) else l

/-- The 3-sample window `(prev2, prev1, curr)` read from the tail of a
history list (Python `h[-3], h[-2], h[-1]`). -/
def tailWindow (l : List α) : α × α × α :=
  (l.getD (l.length - 3) 0, l.getD (l.length - 2) 0, l.getD (l.length - 1) 0)

/-- Arm-peak stage of `_detect_peak`: returns
`(is_arm_peak, position, confidence, last_top_frame)`. -/
def armStage (s : DetectorState α) (frame_index : ℤ) (armHist : List α) :
    Bool × Option String × α × ℤ :=
  if 3 ≤ armHist.length then
    let w := tailWindow armHist
    -- peak: prev1 > prev2 and prev1 >= curr (local maximum)
    if w.2.1 > w.1 ∧ w.2.1 ≥ w.2.2 then
      if frame_index - s.last_top_frame > 10 then
        (true, some "top", 9 / 10, frame_index)
      else (true, none, 0, s.last_top_frame)
    else (false, none, 0, s.last_top_frame)
  else (false, none, 0, s.last_top_frame)

/-- Spine-peak stage of `_detect_peak`: takes the position/confidence left
by the arm stage and returns
`(is_spine_peak, position, confidence, last_bottom_frame)`. -/
def spineStage (s : DetectorState α) (frame_index : ℤ) (spineHist : List α)
    (pos : Option String) (conf : α) : Bool × Option String × α × ℤ :=
  if 3 ≤ spineHist.length then
    let w := tailWindow spineHist
    -- peak with the minimum-bend requirement prev1 > 50
    if w.2.1 > w.1 ∧ w.2.1 ≥ w.2.2 ∧ w.2.1 > 50 then
      if frame_index - s.last_bottom_frame > 10 then
        (true, some "bottom", 9 / 10, frame_index)
      else (true, pos, conf, s.last_bottom_frame)
    else (false, pos, conf, s.last_bottom_frame)
  else (false, pos, conf, s.last_bottom_frame)

/-- Slope fallback of `_detect_peak`: when no peak labelled the frame,
classify by the spine-angle slope against the previous frame. -/
def slopeFallback (s : DetectorState α) (spine : α) (spineHist : List α)
    (pos : Option String) (conf : α) : Option String × α :=
  if pos = none then
    if 2 ≤ spineHist.length then
      if spine > s.prev_spine_angle + 2 then (some "connect", 1 / 2)
      else if spine < s.prev_spine_angle - 2 then (some "release", 1 / 2)
      else (pos, conf)
    else (pos, conf)
  else (pos, conf)

/-- `PositionDetector._detect_peak(frame_index, video_time, angles)`:
appends to the bounded histories, flags 3-sample local maxima on each
series, applies the 10-frame refractory gates, and falls back to the slope
classification.  Returns the updated state and the frame's result. -/
def detect_peak (s : DetectorState α) (frame_index : ℤ) (video_time : α)
    (angles : Angles α) : DetectorState α × DetectionResult α :=
  let arm_height := armHeightOf angles
  let spine := spineOf angles
  let armHist := armHistAfter s angles
  let spineHist := spineHistAfter s angles
  let a := armStage s frame_index armHist
  let b := spineStage s frame_index spineHist a.2.1 a.2.2.1
  let pc := slopeFallback s spine spineHist b.2.1 b.2.2.1
  ({ s with
      prev_arm_angle := arm_height
      prev_spine_angle := spine
      arm_angle_history := armHist
      spine_angle_history := spineHist
      last_top_frame := a.2.2.2
      last_bottom_frame := b.2.2.2 },
   { frame_index := frame_index
     video_time := video_time
     detected_position := pc.1
     confidence := pc.2
     angles := angles
     is_arm_peak := a.1
     is_spine_peak := b.1 })

/-- `PositionDetector.detect` dispatch on the algorithm selector.  The
Python method computes the angles dict first and then dispatches; here the
angles dict is the argument (see `compute_angles_from_keypoints` for the
computation), which preserves the dispatch and error behaviour since the
angle computation is total. -/
def detect (s : DetectorState α) (frame_index : ℤ) (video_time : α)
    (angles : Angles α) :
    Except String (DetectorState α × DetectionResult α) :=
  if s.algorithm = "threshold" then
    .ok (s, detect_threshold frame_index video_time angles)
  else if s.algorithm = "peak" then
    .ok (detect_peak s frame_index video_time angles)
  else
    .error ("Unknown algorithm: " ++ s.algorithm)

end PositionDetector

/-- `PositionDetector.detect` on keypoints: the composition actually run
per frame (`test_position_detection.analyze_posetrack`). -/
noncomputable def detectFromKeypoints (s : DetectorState ℝ) (frame_index : ℤ)
    (video_time : ℝ) (kps : List Keypoint) :
    Except String (DetectorState ℝ × DetectionResult ℝ) :=
  PositionDetector.detect s frame_index video_time
    (compute_angles_from_keypoints kps)

/-- Candidate flag of `_detect_peak`'s arm stage: the appended-and-truncated
arm history is at least 3 long and its tail window is a local maximum. -/
def armPeakFlag (s : DetectorState ℚ) (angles : Angles ℚ) : Prop :=
  3 ≤ (PositionDetector.armHistAfter s angles).length ∧
    (PositionDetector.tailWindow (PositionDetector.armHistAfter s angles)).2.1 >
      (PositionDetector.tailWindow (PositionDetector.armHistAfter s angles)).1 ∧
    (PositionDetector.tailWindow (PositionDetector.armHistAfter s angles)).2.1 ≥
      (PositionDetector.tailWindow (PositionDetector.armHistAfter s angles)).2.2

instance (s : DetectorState ℚ) (angles : Angles ℚ) :
    Decidable (armPeakFlag s angles) := by
  unfold armPeakFlag; infer_instance

/-- Qualifying spine peak of `_detect_peak`'s spine stage (local maximum
with `prev1 > 50`). -/
def spinePeakQualifies (s : DetectorState ℚ) (angles : Angles ℚ) : Prop :=
  3 ≤ (PositionDetector.spineHistAfter s angles).length ∧
    (PositionDetector.tailWindow (PositionDetector.spineHistAfter s angles)).2.1 >
      (PositionDetector.tailWindow (PositionDetector.spineHistAfter s angles)).1 ∧
    (PositionDetector.tailWindow (PositionDetector.spineHistAfter s angles)).2.1 ≥
      (PositionDetector.tailWindow (PositionDetector.spineHistAfter s angles)).2.2 ∧
    (PositionDetector.tailWindow (PositionDetector.spineHistAfter s angles)).2.1 > 50

instance (s : DetectorState ℚ) (angles : Angles ℚ) :
    Decidable (spinePeakQualifies s angles) := by
  unfold spinePeakQualifies; infer_instance

/-- A qualifying spine peak whose own refractory gate is open: it overwrites
the frame label with `bottom` in the same call. -/
def spineOverwrites (s : DetectorState ℚ) (frame_index : ℤ)
    (angles : Angles ℚ) : Prop :=
  spinePeakQualifies s angles ∧ frame_index - s.last_bottom_frame > 10

instance (s : DetectorState ℚ) (fi : ℤ) (angles : Angles ℚ) :
    Decidable (spineOverwrites s fi angles) := by
  unfold spineOverwrites; infer_instance

/-- Test-harness angles dict used by the peak-trace claims: arm height `h`
with the spine angle held constant at 70. -/
def anglesAt (h : ℚ) : Angles ℚ :=
  { spine := some 70, avgWristHeight := some h }

/-- Drive `_detect_peak` over one arm-height sample per frame (frame
indices 0, 1, 2, …), collecting the per-frame results. -/
def peakRun (hs : List ℚ) : DetectorState ℚ × List (DetectionResult ℚ) :=
  hs.enum.foldl
    (fun acc p =>
      let out := PositionDetector.detect_peak acc.1 (p.1 : ℤ) 0 (anglesAt p.2)
      (out.1, acc.2 ++ [out.2]))
    (PositionDetector.init "peak", [])

/-- Loop body of `annotate_poses.find_peaks`: state is
`(last_peak, peaks)`; `i` is the current index.  A local maximum
(`values[i] > values[i-1]` and `values[i] >= values[i+1]`) below the
threshold is skipped outright; otherwise it is accepted only when
`i - last_peak >= min_distance`, and only acceptance moves `last_peak`. -/
def fpStep (values : List ℚ) (min_distance : ℤ) (threshold : Option ℚ)
    (st : ℤ × List ℕ) (i : ℕ) : ℤ × List ℕ :=
  if values.getD i 0 > values.getD (i - 1) 0 ∧
      values.getD i 0 ≥ values.getD (i + 1) 0 then
    let belowThreshold : Bool :=
      match threshold with
      | some t => decide (values.getD i 0 < t)
      | none => false
    if belowThreshold then st
    else if min_distance ≤ (i : ℤ) - st.1 then ((i : ℤ), st.2 ++ [i])
    else st
  else st

/-- `annotate_poses.find_peaks(values, min_distance, threshold)`: scans
indices `1 .. len-2` left to right (`range(1, len(values) - 1)`), with
`last_peak` initialised to `-min_distance`.  Inputs shorter than 3 return
the empty list. -/
def find_peaks (values : List ℚ) (min_distance : ℤ) (threshold : Option ℚ) :
    List ℕ :=
  if values.length < 3 then []
  else
    ((List.range' 1 (values.length - 2)).foldl
      (fpStep values min_distance threshold) (-min_distance, [])).2

/-- `annotate_poses.find_valleys`: `find_peaks` on the negated series with
the negated threshold. -/
def find_valleys (values : List ℚ) (min_distance : ℤ) (threshold : Option ℚ) :
    List ℕ :=
  find_peaks (values.map (fun v => -v)) min_distance
    (match threshold with | some t => some (-t) | none => none)

/-- `annotate_poses.smooth(values, window)`: centered moving average with
the window truncated at the sequence boundaries. -/
def smooth (values : List ℚ) (window : ℕ) : List ℚ :=
  (List.range values.length).map fun i =>
    let start := max 0 (i - window / 2)
    let stop := min values.length (i + window / 2 + 1)
    ((values.drop start).take (stop - start)).sum / ((stop : ℚ) - (start : ℚ))

/-- Ground-truth frame set for one position:
`{gt.frame_index for gt in ground_truth if gt.position == position}`
(a Python set, modelled as a deduplicated list). -/
def gtFrames (ground_truth : List GroundTruth) (position : String) : List ℤ :=
  ((ground_truth.filter fun g => g.position = position).map
    fun g => g.frame_index).dedup

/-- Detected frame set for one position:
`{r.frame_index for r in results if r.detected_position == position}`. -/
def detectedFrames (results : List (DetectionResult ℚ)) (position : String) :
    List ℤ :=
  ((results.filter fun r => r.detected_position = some position).map
    fun r => r.frame_index).dedup

/-- `test_position_detection.evaluate_algorithm(results, ground_truth,
position)`: classifies each detected frame as true/false positive by the
±2-frame tolerance against any ground-truth frame, then each ground-truth
frame as a false negative when no detected frame is within tolerance. -/
def evaluate_algorithm (results : List (DetectionResult ℚ))
    (ground_truth : List GroundTruth) (position : String) : AlgorithmMetrics :=
  let gt_frames := gtFrames ground_truth position
  let detected_frames := detectedFrames results position
  let m0 : AlgorithmMetrics := { total_frames := results.length }
  let m1 := detected_frames.foldl
    (fun m d =>
      if gt_frames.any (fun g => decide (|d - g| ≤ 2)) then
        { m with true_positives := m.true_positives + 1 }
      else
        { m with
          false_positives := m.false_positives + 1
          position_errors := m.position_errors ++ [("false_positive", d)] })
    m0
  gt_frames.foldl
    (fun m g =>
      if detected_frames.any (fun d => decide (|d - g| ≤ 2)) then m
      else
        { m with
          false_negatives := m.false_negatives + 1
          position_errors := m.position_errors ++ [("false_negative", g)] })
    m1

/-- A detection-result record carrying only the fields the evaluator reads
(used to state the evaluator examples). -/
def mkRes (frame_index : ℤ) (pos : Option String) : DetectionResult ℚ :=
  { frame_index := frame_index
    video_time := 0
    detected_position := pos
    confidence := 0
    angles := {} }

/-- Claim C1 as stated is false: feeding arm heights `[0,5,10,5,0]` at
frames 0..4 with the spine constant at 70, the frame-2 result has
`is_arm_peak = false` and no label.  The 3-sample window `(prev2, prev1,
curr)` flags a maximum only once the decrease is visible, i.e. at frame 3,
where the `top` label is emitted. -/
theorem C1_counterexample :
    ((peakRun [0, 5, 10, 5, 0]).2.map
        fun r => (r.is_arm_peak, r.detected_position)) =
      [(false, none), (false, none), (false, none),
        (true, some "top"), (false, none)] := by
  with_unfolding_all rfl

/-- Claim C1 (amended): with arm heights `[0,5,10,5,0]` per frame and the
spine held at 70, `is_arm_peak = true` and `detected_position = "top"`
occur at frame 3 (one frame after the maximum sample), not frame 2; a
second identical bump within 10 frames flags `is_arm_peak = true` again at
frame 8 but the refractory gate suppresses the `top` label. -/
theorem C1_amended :
    ((peakRun [0, 5, 10, 5, 0, 0, 5, 10, 5, 0]).2.map
        fun r => (r.is_arm_peak, r.detected_position)) =
      [(false, none), (false, none), (false, none), (true, some "top"),
        (false, none), (false, none), (false, none), (false, none),
        (true, none), (false, none)] := by
  with_unfolding_all rfl

/-- Claim C2 as stated is false: constructing a `PositionDetector` with the
unknown selector `"bogus"` succeeds (the state is built, nothing is
validated); the unknown-algorithm error is raised only by `detect`. -/
theorem C2_counterexample :
    (PositionDetector.init "bogus" : DetectorState ℚ).algorithm = "bogus" ∧
    (PositionDetector.init "bogus" : DetectorState ℚ).arm_angle_history = [] ∧
    PositionDetector.detect (PositionDetector.init "bogus" : DetectorState ℚ)
        0 0 {} = .error "Unknown algorithm: bogus" :=
  ⟨rfl, rfl, rfl⟩

/-- Claim C2 (amended): construction stores any selector unvalidated; every
`detect` call with a selector outside `{threshold, peak}` raises the
unknown-algorithm error, and with a known selector `detect` never errors —
so the unknown-algorithm error, raised at `detect` time, is the only error
the detector throws. -/
theorem C2_amended (fi : ℤ) (vt : ℚ) (a : Angles ℚ) :
    (∀ alg : String, (PositionDetector.init alg : DetectorState ℚ).algorithm = alg) ∧
    (∀ s : DetectorState ℚ, s.algorithm = "threshold" ∨ s.algorithm = "peak" →
      ∃ out, PositionDetector.detect s fi vt a = .ok out) ∧
    (∀ s : DetectorState ℚ, s.algorithm ≠ "threshold" → s.algorithm ≠ "peak" →
      PositionDetector.detect s fi vt a =
        .error ("Unknown algorithm: " ++ s.algorithm)) := by
  refine ⟨fun alg => rfl, fun s h => ?_, fun s h1 h2 => ?_⟩
  · rcases h with h | h <;> simp [PositionDetector.detect, h]
  · simp [PositionDetector.detect, h1, h2]

/-- Witness for C2_amended at concrete inputs: the `"peak"` selector gives
a successful `detect`, the `"bogus"` selector gives the error. -/
theorem C2_witness :
    ((PositionDetector.init "peak" : DetectorState ℚ).algorithm = "threshold" ∨
      (PositionDetector.init "peak" : DetectorState ℚ).algorithm = "peak") ∧
    (∃ out, PositionDetector.detect
        (PositionDetector.init "peak" : DetectorState ℚ) 0 0 {} = .ok out) ∧
    ((PositionDetector.init "bogus" : DetectorState ℚ).algorithm ≠ "threshold") ∧
    ((PositionDetector.init "bogus" : DetectorState ℚ).algorithm ≠ "peak") ∧
    PositionDetector.detect (PositionDetector.init "bogus" : DetectorState ℚ)
        0 0 {} = .error ("Unknown algorithm: " ++
          (PositionDetector.init "bogus" : DetectorState ℚ).algorithm) :=
  ⟨Or.inr rfl,
   (C2_amended 0 0 {}).2.1 _ (Or.inr rfl),
   by decide, by decide,
   (C2_amended 0 0 {}).2.2 _ (by decide) (by decide)⟩

/-- Claim C4: the threshold algorithm's banding on the spine angle `s`:
`s < 25 → top` with confidence `1 - s/25`; `s > 60 → bottom` with
confidence `min 1 ((s-60)/30)`; `25 ≤ s < 45 → release` at 0.5;
`45 ≤ s ≤ 60 → connect` at 0.5; with the four concrete cases
`10 → (top, 0.6)`, `75 → (bottom, 0.5)`, `50 → (connect, 0.5)`,
`45 → (connect, 0.5)`. -/
theorem C4_threshold (fi : ℤ) (vt : ℚ) (a : Angles ℚ) :
    (spineOf a < 25 →
      (PositionDetector.detect_threshold fi vt a).detected_position = some "top" ∧
      (PositionDetector.detect_threshold fi vt a).confidence = 1 - spineOf a / 25) ∧
    (60 < spineOf a →
      (PositionDetector.detect_threshold fi vt a).detected_position = some "bottom" ∧
      (PositionDetector.detect_threshold fi vt a).confidence =
        min 1 ((spineOf a - 60) / 30)) ∧
    (25 ≤ spineOf a → spineOf a < 45 →
      (PositionDetector.detect_threshold fi vt a).detected_position = some "release" ∧
      (PositionDetector.detect_threshold fi vt a).confidence = 1 / 2) ∧
    (45 ≤ spineOf a → spineOf a ≤ 60 →
      (PositionDetector.detect_threshold fi vt a).detected_position = some "connect" ∧
      (PositionDetector.detect_threshold fi vt a).confidence = 1 / 2) ∧
    ((PositionDetector.detect_threshold 0 0 ({ spine := some 10 } : Angles ℚ)).detected_position = some "top" ∧
      (PositionDetector.detect_threshold 0 0 ({ spine := some 10 } : Angles ℚ)).confidence = 3 / 5) ∧
    ((PositionDetector.detect_threshold 0 0 ({ spine := some 75 } : Angles ℚ)).detected_position = some "bottom" ∧
      (PositionDetector.detect_threshold 0 0 ({ spine := some 75 } : Angles ℚ)).confidence = 1 / 2) ∧
    ((PositionDetector.detect_threshold 0 0 ({ spine := some 50 } : Angles ℚ)).detected_position = some "connect" ∧
      (PositionDetector.detect_threshold 0 0 ({ spine := some 50 } : Angles ℚ)).confidence = 1 / 2) ∧
    ((PositionDetector.detect_threshold 0 0 ({ spine := some 45 } : Angles ℚ)).detected_position = some "connect" ∧
      (PositionDetector.detect_threshold 0 0 ({ spine := some 45 } : Angles ℚ)).confidence = 1 / 2) := by
  refine ⟨fun h => ?_, fun h => ?_, fun h1 h2 => ?_, fun h1 h2 => ?_,
    by with_unfolding_all decide, by with_unfolding_all decide,
    by with_unfolding_all decide, by with_unfolding_all decide⟩ <;>
    simp only [PositionDetector.detect_threshold] <;>
    split_ifs <;>
    first
      | exact ⟨rfl, rfl⟩
      | (constructor <;> linarith)

/-- Witness for C4_threshold: the `spine = 10` profile satisfies the first
band and yields `top` with confidence `1 - 10/25`. -/
theorem C4_witness :
    spineOf ({ spine := some 10 } : Angles ℚ) < 25 ∧
    (PositionDetector.detect_threshold 0 0 ({ spine := some 10 } : Angles ℚ)).detected_position = some "top" ∧
    (PositionDetector.detect_threshold 0 0 ({ spine := some 10 } : Angles ℚ)).confidence =
      1 - spineOf ({ spine := some 10 } : Angles ℚ) / 25 := by
  have h := (C4_threshold 0 0 ({ spine := some 10 } : Angles ℚ)).1
    (by with_unfolding_all decide)
  exact ⟨by with_unfolding_all decide, h.1, h.2⟩

/-- When the arm window flags a local maximum, the arm stage reports the
peak and emits `top` exactly when the refractory gate is open. -/
theorem armStage_flag (s : DetectorState ℚ) (fi : ℤ) (h : List ℚ)
    (hlen : 3 ≤ h.length)
    (hpk : (PositionDetector.tailWindow h).2.1 > (PositionDetector.tailWindow h).1 ∧
      (PositionDetector.tailWindow h).2.1 ≥ (PositionDetector.tailWindow h).2.2) :
    PositionDetector.armStage s fi h =
      if fi - s.last_top_frame > 10 then (true, some "top", 9 / 10, fi)
      else (true, none, 0, s.last_top_frame) := by
  simp only [PositionDetector.armStage]
  rw [if_pos hlen, if_pos hpk]

/-- When no qualifying spine peak with an open bottom gate fires, the spine
stage passes the arm stage's position and confidence through unchanged. -/
theorem spineStage_passthrough (s : DetectorState ℚ) (fi : ℤ) (a : Angles ℚ)
    (p : Option String) (c : ℚ) (hno : ¬ spineOverwrites s fi a) :
    (PositionDetector.spineStage s fi (PositionDetector.spineHistAfter s a) p c).2.1 = p ∧
    (PositionDetector.spineStage s fi (PositionDetector.spineHistAfter s a) p c).2.2.1 = c := by
  unfold spineOverwrites spinePeakQualifies at hno
  simp only [PositionDetector.spineStage]
  split_ifs with h1 h2 h3
  · exact absurd ⟨⟨h1, h2.1, h2.2.1, h2.2.2⟩, h3⟩ hno
  · exact ⟨rfl, rfl⟩
  · exact ⟨rfl, rfl⟩
  · exact ⟨rfl, rfl⟩

/-- The spine stage can only leave the position alone or set it to
`bottom`, never to `top`. -/
theorem spineStage_not_top (s : DetectorState ℚ) (fi : ℤ) (h : List ℚ)
    (p : Option String) (c : ℚ) (hp : p ≠ some "top") :
    (PositionDetector.spineStage s fi h p c).2.1 ≠ some "top" := by
  simp only [PositionDetector.spineStage]
  split_ifs <;> simp [hp]

/-- The slope fallback can only leave the position alone or set it to
`connect` or `release`, never to `top`. -/
theorem slopeFallback_not_top (s : DetectorState ℚ) (spine : ℚ) (h : List ℚ)
    (p : Option String) (c : ℚ) (hp : p ≠ some "top") :
    (PositionDetector.slopeFallback s spine h p c).1 ≠ some "top" := by
  simp only [PositionDetector.slopeFallback]
  split_ifs <;> simp [hp]

/-- The slope fallback leaves an already-labelled frame unchanged. -/
theorem slopeFallback_labelled (s : DetectorState ℚ) (spine : ℚ) (h : List ℚ)
    (p : Option String) (c : ℚ) (hp : p ≠ none) :
    PositionDetector.slopeFallback s spine h p c = (p, c) := by
  simp only [PositionDetector.slopeFallback]
  rw [if_neg hp]

/-- Claim C3 (amended): whenever the 3-sample arm window flags a local
maximum (`prev1 > prev2` and `prev1 >= curr`), the result has
`is_arm_peak = true`; the `top` label with confidence 0.9 is emitted when
*strictly more* than 10 frames have elapsed since the last accepted top
(`frame_index - last_top_frame > 10`, not `>= 10`) and no qualifying spine
peak with an open bottom gate overwrites the label in the same call; when
at most 10 frames have elapsed the label is withheld (never `top`) while
`is_arm_peak` is still reported true. -/
theorem C3_refractory (s : DetectorState ℚ) (fi : ℤ) (vt : ℚ) (a : Angles ℚ)
    (hp : armPeakFlag s a) :
    (PositionDetector.detect_peak s fi vt a).2.is_arm_peak = true ∧
    (10 < fi - s.last_top_frame → ¬ spineOverwrites s fi a →
      (PositionDetector.detect_peak s fi vt a).2.detected_position = some "top" ∧
      (PositionDetector.detect_peak s fi vt a).2.confidence = 9 / 10) ∧
    (fi - s.last_top_frame ≤ 10 →
      (PositionDetector.detect_peak s fi vt a).2.detected_position ≠ some "top") := by
  obtain ⟨hlen, hpk1, hpk2⟩ := hp
  have harm := armStage_flag s fi (PositionDetector.armHistAfter s a) hlen ⟨hpk1, hpk2⟩
  simp only [PositionDetector.detect_peak, harm]
  by_cases hgate : fi - s.last_top_frame > 10
  · rw [if_pos hgate]
    refine ⟨rfl, fun _ hno => ?_, fun hle => absurd hgate (by linarith)⟩
    obtain ⟨hpos, hconf⟩ :=
      spineStage_passthrough s fi a (some "top") (9 / 10) hno
    rw [hpos, hconf, slopeFallback_labelled s (spineOf a)
      (PositionDetector.spineHistAfter s a) (some "top") (9 / 10) (by simp)]
    exact ⟨rfl, rfl⟩
  · rw [if_neg hgate]
    refine ⟨rfl, fun h10 => absurd h10 hgate, fun _ => ?_⟩
    exact slopeFallback_not_top s (spineOf a) (PositionDetector.spineHistAfter s a) _ _
      (spineStage_not_top s fi (PositionDetector.spineHistAfter s a) none 0 (by simp))

/-- Witness for C3_refractory: after histories `[0, 5]` a new sample 5
flags an arm peak; at frame 100 the gate is wide open, the constant spine
cannot overwrite, and `top` is emitted at confidence 0.9. -/
theorem C3_witness :
    armPeakFlag (peakRun [0, 5]).1 (anglesAt 5) ∧
    10 < (100 : ℤ) - (peakRun [0, 5]).1.last_top_frame ∧
    ¬ spineOverwrites (peakRun [0, 5]).1 100 (anglesAt 5) ∧
    (PositionDetector.detect_peak (peakRun [0, 5]).1 100 0
        (anglesAt 5)).2.detected_position = some "top" ∧
    (PositionDetector.detect_peak (peakRun [0, 5]).1 100 0
        (anglesAt 5)).2.confidence = 9 / 10 := by
  have h := (C3_refractory (peakRun [0, 5]).1 100 0 (anglesAt 5)
      (by with_unfolding_all decide)).2.1
    (by with_unfolding_all decide) (by with_unfolding_all decide)
  exact ⟨by with_unfolding_all decide, by with_unfolding_all decide,
    by with_unfolding_all decide, h.1, h.2⟩

/-- Claim C3 as stated is false on its `>= 10` reading: in this trace the
last accepted `top` is at frame 3; at frame 13 the arm window flags a peak
(`is_arm_peak = true`) and exactly 10 frames have elapsed, yet no `top`
label is emitted (the gate requires strictly more than 10). -/
theorem C3_counterexample :
    ((peakRun [0, 5, 10, 5, 0, 0, 0, 0, 0, 0, 0, 0, 5, 5]).2.map
        fun r => (r.is_arm_peak, r.detected_position)) =
      [(false, none), (false, none), (false, none), (true, some "top"),
        (false, none), (false, none), (false, none), (false, none),
        (false, none), (false, none), (false, none), (false, none),
        (false, none), (true, none)] ∧
    (peakRun [0, 5, 10, 5, 0, 0, 0, 0, 0, 0, 0, 0, 5, 5]).1.last_top_frame = 3 :=
  ⟨by with_unfolding_all rfl, by with_unfolding_all rfl⟩

/-- The detected-frames pass of the evaluator adds one true positive per
detected frame with a ground-truth frame within tolerance and one false
positive per detected frame without, leaving false negatives alone. -/
theorem eval_fold_detected (gtf : List ℤ) (ds : List ℤ) :
    ∀ m : AlgorithmMetrics,
      ((ds.foldl
          (fun m d =>
            if gtf.any (fun g => decide (|d - g| ≤ 2)) then
              { m with true_positives := m.true_positives + 1 }
            else
              { m with
                false_positives := m.false_positives + 1
                position_errors := m.position_errors ++ [("false_positive", d)] })
          m).true_positives =
        m.true_positives +
          ds.countP (fun d => gtf.any fun g => decide (|d - g| ≤ 2))) ∧
      ((ds.foldl
          (fun m d =>
            if gtf.any (fun g => decide (|d - g| ≤ 2)) then
              { m with true_positives := m.true_positives + 1 }
            else
              { m with
                false_positives := m.false_positives + 1
                position_errors := m.position_errors ++ [("false_positive", d)] })
          m).false_positives =
        m.false_positives +
          ds.countP (fun d => !(gtf.any fun g => decide (|d - g| ≤ 2)))) ∧
      ((ds.foldl
          (fun m d =>
            if gtf.any (fun g => decide (|d - g| ≤ 2)) then
              { m with true_positives := m.true_positives + 1 }
            else
              { m with
                false_positives := m.false_positives + 1
                position_errors := m.position_errors ++ [("false_positive", d)] })
          m).false_negatives = m.false_negatives) := by
  induction ds with
  | nil => intro m; simp
  | cons d ds ih =>
    intro m
    simp only [List.foldl_cons, List.countP_cons]
    by_cases hd : (gtf.any (fun g => decide (|d - g| ≤ 2))) = true
    · simp only [if_pos hd]
      obtain ⟨h1, h2, h3⟩ :=
        ih { m with true_positives := m.true_positives + 1 }
      refine ⟨?_, ?_, ?_⟩ <;> simp only [h1, h2, h3] <;>
        (try simp [hd]) <;> omega
    · simp only [if_neg hd]
      obtain ⟨h1, h2, h3⟩ :=
        ih { m with
              false_positives := m.false_positives + 1
              position_errors := m.position_errors ++ [("false_positive", d)] }
      refine ⟨?_, ?_, ?_⟩ <;> simp only [h1, h2, h3] <;>
        (try simp [Bool.eq_false_iff.mpr hd]) <;> omega

/-- The ground-truth pass of the evaluator adds one false negative per
ground-truth frame with no detection within tolerance, leaving the
true/false positives alone. -/
theorem eval_fold_gt (det : List ℤ) (gs : List ℤ) :
    ∀ m : AlgorithmMetrics,
      ((gs.foldl
          (fun m g =>
            if det.any (fun d => decide (|d - g| ≤ 2)) then m
            else
              { m with
                false_negatives := m.false_negatives + 1
                position_errors := m.position_errors ++ [("false_negative", g)] })
          m).false_negatives =
        m.false_negatives +
          gs.countP (fun g => !(det.any fun d => decide (|d - g| ≤ 2)))) ∧
      ((gs.foldl
          (fun m g =>
            if det.any (fun d => decide (|d - g| ≤ 2)) then m
            else
              { m with
                false_negatives := m.false_negatives + 1
                position_errors := m.position_errors ++ [("false_negative", g)] })
          m).true_positives = m.true_positives) ∧
      ((gs.foldl
          (fun m g =>
            if det.any (fun d => decide (|d - g| ≤ 2)) then m
            else
              { m with
                false_negatives := m.false_negatives + 1
                position_errors := m.position_errors ++ [("false_negative", g)] })
          m).false_positives = m.false_positives) := by
  induction gs with
  | nil => intro m; simp
  | cons g gs ih =>
    intro m
    simp only [List.foldl_cons, List.countP_cons]
    by_cases hg : (det.any (fun d => decide (|d - g| ≤ 2))) = true
    · simp only [if_pos hg]
      obtain ⟨h1, h2, h3⟩ := ih m
      refine ⟨?_, ?_, ?_⟩ <;> simp only [h1, h2, h3] <;>
        (try simp [hg]) <;> omega
    · simp only [if_neg hg]
      obtain ⟨h1, h2, h3⟩ :=
        ih { m with
              false_negatives := m.false_negatives + 1
              position_errors := m.position_errors ++ [("false_negative", g)] }
      refine ⟨?_, ?_, ?_⟩ <;> simp only [h1, h2, h3] <;>
        (try simp [Bool.eq_false_iff.mpr hg]) <;> omega

/-- Claim C5: `evaluate_algorithm` matches with a ±2-frame tolerance
independently in each direction (many-to-many, not a bijection): a detected
frame of the target position is a true positive iff some ground-truth frame
of that position lies within 2 frames, else a false positive; a
ground-truth frame with no detection of that position within 2 frames is a
false negative.  Concretely: ground truth `top` at frame 10 with a
detection at frame 11 gives `tp=1, fp=0, fn=0`; adding a detection at
frame 20 adds `fp=1`; with no detection in frames 8..12 the ground-truth
frame gives `fn=1`. -/
theorem C5_evaluator (results : List (DetectionResult ℚ))
    (ground_truth : List GroundTruth) (position : String) :
    ((evaluate_algorithm results ground_truth position).true_positives =
      (detectedFrames results position).countP
        (fun d => (gtFrames ground_truth position).any
          fun g => decide (|d - g| ≤ 2))) ∧
    ((evaluate_algorithm results ground_truth position).false_positives =
      (detectedFrames results position).countP
        (fun d => !((gtFrames ground_truth position).any
          fun g => decide (|d - g| ≤ 2)))) ∧
    ((evaluate_algorithm results ground_truth position).false_negatives =
      (gtFrames ground_truth position).countP
        (fun g => !((detectedFrames results position).any
          fun d => decide (|d - g| ≤ 2)))) ∧
    ((evaluate_algorithm [mkRes 11 (some "top")]
        [{ frame_index := 10, position := "top" }] "top").true_positives = 1 ∧
      (evaluate_algorithm [mkRes 11 (some "top")]
        [{ frame_index := 10, position := "top" }] "top").false_positives = 0 ∧
      (evaluate_algorithm [mkRes 11 (some "top")]
        [{ frame_index := 10, position := "top" }] "top").false_negatives = 0) ∧
    ((evaluate_algorithm [mkRes 11 (some "top"), mkRes 20 (some "top")]
        [{ frame_index := 10, position := "top" }] "top").true_positives = 1 ∧
      (evaluate_algorithm [mkRes 11 (some "top"), mkRes 20 (some "top")]
        [{ frame_index := 10, position := "top" }] "top").false_positives = 1 ∧
      (evaluate_algorithm [mkRes 11 (some "top"), mkRes 20 (some "top")]
        [{ frame_index := 10, position := "top" }] "top").false_negatives = 0) ∧
    ((evaluate_algorithm [mkRes 20 (some "top")]
        [{ frame_index := 10, position := "top" }] "top").true_positives = 0 ∧
      (evaluate_algorithm [mkRes 20 (some "top")]
        [{ frame_index := 10, position := "top" }] "top").false_positives = 1 ∧
      (evaluate_algorithm [mkRes 20 (some "top")]
        [{ frame_index := 10, position := "top" }] "top").false_negatives = 1) := by
  refine ⟨?_, ?_, ?_,
    ⟨by with_unfolding_all decide, by with_unfolding_all decide,
      by with_unfolding_all decide⟩,
    ⟨by with_unfolding_all decide, by with_unfolding_all decide,
      by with_unfolding_all decide⟩,
    ⟨by with_unfolding_all decide, by with_unfolding_all decide,
      by with_unfolding_all decide⟩⟩ <;>
    simp only [evaluate_algorithm] <;>
    [rw [(eval_fold_gt (detectedFrames results position)
          (gtFrames ground_truth position) _).2.1,
        (eval_fold_detected (gtFrames ground_truth position)
          (detectedFrames results position) _).1];
      rw [(eval_fold_gt (detectedFrames results position)
          (gtFrames ground_truth position) _).2.2,
        (eval_fold_detected (gtFrames ground_truth position)
          (detectedFrames results position) _).2.1];
      rw [(eval_fold_gt (detectedFrames results position)
          (gtFrames ground_truth position) _).1,
        (eval_fold_detected (gtFrames ground_truth position)
          (detectedFrames results position) _).2.2]] <;>
    simp

/-- Spacing invariant of the `find_peaks` scan: processing any strictly
increasing index list keeps the accepted peaks pairwise separated by at
least `min_distance`, because only acceptance updates `last_peak` and a
candidate is accepted only at distance at least `min_distance` from the
previously accepted index. -/
theorem fp_fold_invariant (values : List ℚ) (md : ℤ) (th : Option ℚ)
    (idxs : List ℕ) :
    ∀ (last : ℤ) (peaks : List ℕ),
      idxs.Pairwise (· < ·) →
      (∀ x ∈ peaks, ∀ j ∈ idxs, x < j) →
      (0 < md → (∀ x ∈ peaks, (x : ℤ) ≤ last) ∧ (∀ j ∈ idxs, last < (j : ℤ))) →
      peaks.Pairwise (fun x y : ℕ => md ≤ (y : ℤ) - (x : ℤ)) →
      ((idxs.foldl (fpStep values md th) (last, peaks)).2).Pairwise
        (fun x y : ℕ => md ≤ (y : ℤ) - (x : ℤ)) := by
  induction idxs with
  | nil => intro last peaks _ _ _ hp; simpa using hp
  | cons i rest ih =>
    intro last peaks hsort hbelow hpos hp
    rw [List.foldl_cons]
    obtain ⟨hilt, hsort'⟩ := List.pairwise_cons.mp hsort
    have hstep : fpStep values md th (last, peaks) i = (last, peaks) ∨
        (fpStep values md th (last, peaks) i = ((i : ℤ), peaks ++ [i]) ∧
          md ≤ (i : ℤ) - last) := by
      simp only [fpStep]
      split_ifs with h1 h2 h3
      · exact Or.inl rfl
      · exact Or.inr ⟨rfl, h3⟩
      · exact Or.inl rfl
      · exact Or.inl rfl
    rcases hstep with hst | ⟨hst, hdist⟩
    · rw [hst]
      refine ih last peaks hsort' ?_ ?_ hp
      · exact fun x hx j hj => hbelow x hx j (List.mem_cons_of_mem i hj)
      · intro hmd
        exact ⟨(hpos hmd).1, fun j hj => (hpos hmd).2 j (List.mem_cons_of_mem i hj)⟩
    · rw [hst]
      refine ih (i : ℤ) (peaks ++ [i]) hsort' ?_ ?_ ?_
      · intro x hx j hj
        rcases List.mem_append.mp hx with hx | hx
        · exact hbelow x hx j (List.mem_cons_of_mem i hj)
        · rcases List.mem_singleton.mp hx with rfl
          exact hilt j hj
      · intro hmd
        constructor
        · intro x hx
          rcases List.mem_append.mp hx with hx | hx
          · have h1 : (x : ℤ) ≤ last := (hpos hmd).1 x hx
            have h2 : last < (i : ℤ) := (hpos hmd).2 i (List.mem_cons_self i rest)
            omega
          · rcases List.mem_singleton.mp hx with rfl
            omega
        · intro j hj
          exact_mod_cast Int.ofNat_lt.mpr (hilt j hj)
      · rw [List.pairwise_append]
        refine ⟨hp, List.pairwise_singleton _ _, ?_⟩
        intro x hx y hy
        rcases List.mem_singleton.mp hy with rfl
        by_cases hmd : 0 < md
        · have h1 : (x : ℤ) ≤ last := (hpos hmd).1 x hx
          omega
        · have h1 : x < y := hbelow x hx y (List.mem_cons_self y rest)
          have h2 : (x : ℤ) < (y : ℤ) := by exact_mod_cast h1
          omega

/-- Claim C6: any two indices returned by `find_peaks` differ by at least
`min_distance`, measured from the previously accepted index only; an input
of length less than 3 returns the empty list; the concrete run
`find_peaks [0,2,1,2,1,2,1,0] 3 none = [1,5]` shows that the rejected
candidate at index 3 does not reset the spacing counter (a reset would
reject index 5 as well). -/
theorem C6_find_peaks (values : List ℚ) (min_distance : ℤ)
    (threshold : Option ℚ) :
    ((find_peaks values min_distance threshold).Pairwise
        fun x y : ℕ => min_distance ≤ (y : ℤ) - (x : ℤ)) ∧
    (values.length < 3 → find_peaks values min_distance threshold = []) ∧
    find_peaks [0, 2, 1, 2, 1, 2, 1, 0] 3 none = [1, 5] := by
  refine ⟨?_, ?_, by with_unfolding_all rfl⟩
  · unfold find_peaks
    split_ifs with h
    · simp
    · refine fp_fold_invariant values min_distance threshold _ _ _
        (List.pairwise_lt_range' 1 (values.length - 2)) (by simp) ?_ (by simp)
      intro hmd
      refine ⟨by simp, fun j hj => ?_⟩
      have h1 : 1 ≤ j := (List.mem_range'_1.mp hj).1
      omega
  · intro h
    unfold find_peaks
    rw [if_pos h]

/-- Witness for C6_find_peaks: a length-2 input returns the empty list. -/
theorem C6_witness :
    ([(1 : ℚ), 2] : List ℚ).length < 3 ∧ find_peaks [1, 2] 3 none = [] :=
  ⟨by decide, (C6_find_peaks [1, 2] 3 none).2.1 (by decide)⟩

/-- Length of the arm history after one `_detect_peak` call: append one
sample, truncate to the last 10 when the bound is exceeded. -/
theorem armHistAfter_length (s : DetectorState ℚ) (a : Angles ℚ) :
    (PositionDetector.armHistAfter s a).length =
      min (s.arm_angle_history.length + 1) 10 := by
  simp only [PositionDetector.armHistAfter]
  split_ifs with h <;> simp_all [List.length_append] <;> omega

/-- The arm history after a call is a suffix of the appended series. -/
theorem armHistAfter_suffix (s : DetectorState ℚ) (a : Angles ℚ) :
    PositionDetector.armHistAfter s a <:+
      s.arm_angle_history ++ [armHeightOf a] := by
  simp only [PositionDetector.armHistAfter]
  split_ifs with h
  · exact List.drop_suffix _ _
  · exact List.suffix_refl _

/-- The spine history after a call is a suffix of the appended series. -/
theorem spineHistAfter_suffix (s : DetectorState ℚ) (a : Angles ℚ) :
    PositionDetector.spineHistAfter s a <:+
      s.spine_angle_history ++ [spineOf a] := by
  simp only [PositionDetector.spineHistAfter]
  split_ifs with h
  · exact List.drop_suffix _ _
  · exact List.suffix_refl _

/-- Length of the spine history after one call, when the two histories have
equal length (the truncation of both series is guarded by the arm length). -/
theorem spineHistAfter_length (s : DetectorState ℚ) (a : Angles ℚ)
    (heq : s.spine_angle_history.length = s.arm_angle_history.length) :
    (PositionDetector.spineHistAfter s a).length =
      min (s.spine_angle_history.length + 1) 10 := by
  simp only [PositionDetector.spineHistAfter]
  split_ifs with h <;> simp_all [List.length_append] <;> omega

/-- Claim C10: starting from reset, after every `_detect_peak` call both
internal histories have length at most 10; each call appends the current
sample (the new history is a suffix of the appended series) and truncates
to the most recent 10 samples when the bound is exceeded (the new length is
`min (old + 1) 10`). -/
theorem C10_bounded_history :
    (∀ inputs : List (ℤ × ℚ × Angles ℚ),
      ((inputs.foldl
          (fun s p => (PositionDetector.detect_peak s p.1 p.2.1 p.2.2).1)
          (PositionDetector.init "peak")).arm_angle_history.length ≤ 10 ∧
        (inputs.foldl
          (fun s p => (PositionDetector.detect_peak s p.1 p.2.1 p.2.2).1)
          (PositionDetector.init "peak")).spine_angle_history.length ≤ 10)) ∧
    (∀ (s : DetectorState ℚ) (fi : ℤ) (vt : ℚ) (a : Angles ℚ),
      (PositionDetector.detect_peak s fi vt a).1.arm_angle_history <:+
        s.arm_angle_history ++ [armHeightOf a] ∧
      (PositionDetector.detect_peak s fi vt a).1.spine_angle_history <:+
        s.spine_angle_history ++ [spineOf a] ∧
      (PositionDetector.detect_peak s fi vt a).1.arm_angle_history.length =
        min (s.arm_angle_history.length + 1) 10) := by
  constructor
  · have key : ∀ (inputs : List (ℤ × ℚ × Angles ℚ)) (s : DetectorState ℚ),
        s.arm_angle_history.length ≤ 10 →
        s.spine_angle_history.length = s.arm_angle_history.length →
        ((inputs.foldl
            (fun s p => (PositionDetector.detect_peak s p.1 p.2.1 p.2.2).1)
            s).arm_angle_history.length ≤ 10 ∧
          (inputs.foldl
            (fun s p => (PositionDetector.detect_peak s p.1 p.2.1 p.2.2).1)
            s).spine_angle_history.length =
            (inputs.foldl
              (fun s p => (PositionDetector.detect_peak s p.1 p.2.1 p.2.2).1)
              s).arm_angle_history.length) := by
      intro inputs
      induction inputs with
      | nil => intro s h1 h2; exact ⟨h1, h2⟩
      | cons p rest ih =>
        intro s h1 h2
        rw [List.foldl_cons]
        refine ih _ ?_ ?_
        · have := armHistAfter_length s p.2.2
          simp only [PositionDetector.detect_peak]
          omega
        · have ha := armHistAfter_length s p.2.2
          have hs := spineHistAfter_length s p.2.2 h2
          simp only [PositionDetector.detect_peak]
          omega
    intro inputs
    obtain ⟨h1, h2⟩ := key inputs (PositionDetector.init "peak")
      (by simp [PositionDetector.init]) (by simp [PositionDetector.init])
    exact ⟨h1, by omega⟩
  · intro s fi vt a
    refine ⟨?_, ?_, ?_⟩ <;> simp only [PositionDetector.detect_peak]
    · exact armHistAfter_suffix s a
    · exact spineHistAfter_suffix s a
    · exact armHistAfter_length s a

/-- The degree-converted clipped inverse cosine is never negative. -/
theorem angleFromCos_nonneg (c : ℝ) : 0 ≤ angleFromCos c := by
  unfold angleFromCos
  exact div_nonneg (mul_nonneg (Real.arccos_nonneg _) (by norm_num)) Real.pi_pos.le

/-- The degree-converted clipped inverse cosine never exceeds 180. -/
theorem angleFromCos_le (c : ℝ) : angleFromCos c ≤ 180 := by
  unfold angleFromCos
  rw [div_le_iff₀ Real.pi_pos]
  nlinarith [Real.arccos_le_pi (clip1 c), Real.pi_pos, Real.arccos_nonneg (clip1 c)]

/-- Rounding to two decimal places keeps a value inside `[0, 180]`. -/
theorem round2_bounds (x : ℝ) (h0 : 0 ≤ x) (h180 : x ≤ 180) :
    0 ≤ round2 x ∧ round2 x ≤ 180 := by
  unfold round2
  constructor
  · apply div_nonneg _ (by norm_num)
    have h : (0 : ℤ) ≤ round (100 * x) := by
      rw [round_eq]
      exact Int.floor_nonneg.mpr (by nlinarith)
    exact_mod_cast h
  · rw [div_le_iff₀ (by norm_num : (0 : ℝ) < 100)]
    have h : round (100 * x) ≤ 18000 := by
      rw [round_eq]
      have h2 : ⌊100 * x + 1 / 2⌋ < 18001 := by
        rw [Int.floor_lt]
        push_cast
        nlinarith
      omega
    calc ((round (100 * x) : ℤ) : ℝ) ≤ 18000 := by exact_mod_cast h
      _ = 180 * 100 := by norm_num

/-- A zero cosine converts to exactly 90 degrees. -/
theorem angleFromCos_zero : angleFromCos 0 = 90 := by
  unfold angleFromCos clip1
  rw [show max (-1 : ℝ) (min 0 1) = 0 by norm_num, Real.arccos_zero]
  field_simp
  ring

/-- Every `calculate_angle` value lies in `[0, 180]`. -/
theorem calculate_angle_bounds (p1 p2 p3 : ℚ × ℚ) :
    0 ≤ calculate_angle p1 p2 p3 ∧ calculate_angle p1 p2 p3 ≤ 180 := by
  simp only [calculate_angle]
  exact ⟨angleFromCos_nonneg _, angleFromCos_le _⟩

/-- A strictly negative cosine above `-1` converts to an angle strictly
between 90 and 180 degrees. -/
theorem angleFromCos_gt_90 (c : ℝ) (hc1 : -1 < c) (hc0 : c < 0) :
    90 < angleFromCos c ∧ angleFromCos c < 180 := by
  have hclip : clip1 c = c := by
    unfold clip1
    rw [min_eq_left (by linarith), max_eq_right (by linarith)]
  unfold angleFromCos
  rw [hclip]
  have hlt : Real.arccos c < Real.pi := by
    rcases lt_or_eq_of_le (Real.arccos_le_pi c) with h | h
    · exact h
    · exact absurd (Real.arccos_eq_pi.mp h) (by linarith)
  have hgt : Real.pi / 2 < Real.arccos c := by
    rw [Real.arccos_eq_pi_div_two_sub_arcsin]
    have : Real.arcsin c < 0 := Real.arcsin_lt_zero.mpr hc0
    linarith
  constructor
  · rw [lt_div_iff₀ Real.pi_pos]
    nlinarith [Real.pi_pos]
  · rw [div_lt_iff₀ Real.pi_pos]
    nlinarith [Real.pi_pos]

/-- On a collinear triple with `p1` and `p3` on strictly opposite sides of
the vertex, `calculate_angle` lands strictly between 90 and 180: the
`+1e-6` in the denominator keeps the cosine strictly above `-1`, so the
inverse cosine never reaches 180 degrees. -/
theorem calculate_angle_opposite (p1 p2 p3 : ℚ × ℚ) (t : ℚ) (ht : 0 < t)
    (hne : ¬(p1.1 - p2.1 = 0 ∧ p1.2 - p2.2 = 0))
    (hx : p3.1 - p2.1 = -t * (p1.1 - p2.1))
    (hy : p3.2 - p2.2 = -t * (p1.2 - p2.2)) :
    90 < calculate_angle p1 p2 p3 ∧ calculate_angle p1 p2 p3 < 180 := by
  have htR : (0 : ℝ) < (t : ℚ) := by exact_mod_cast ht
  have hxR : ((p3.1 : ℝ) - (p2.1 : ℝ)) = -(t : ℝ) * ((p1.1 : ℝ) - (p2.1 : ℝ)) := by
    have := congrArg (fun q : ℚ => (q : ℝ)) hx
    push_cast at this
    linarith
  have hyR : ((p3.2 : ℝ) - (p2.2 : ℝ)) = -(t : ℝ) * ((p1.2 : ℝ) - (p2.2 : ℝ)) := by
    have := congrArg (fun q : ℚ => (q : ℝ)) hy
    push_cast at this
    linarith
  simp only [calculate_angle]
  set a : ℝ := (p1.1 : ℝ) - (p2.1 : ℝ) with ha
  set b : ℝ := (p1.2 : ℝ) - (p2.2 : ℝ) with hb
  have hab : 0 < a ^ 2 + b ^ 2 := by
    rcases not_and_or.mp hne with h | h
    · have haq : a ≠ 0 := by
        rw [ha]
        intro hc
        apply h
        have : ((p1.1 - p2.1 : ℚ) : ℝ) = 0 := by push_cast; linarith
        exact_mod_cast this
      positivity
    · have hbq : b ≠ 0 := by
        rw [hb]
        intro hc
        apply h
        have : ((p1.2 - p2.2 : ℚ) : ℝ) = 0 := by push_cast; linarith
        exact_mod_cast this
      positivity
  have hn : 0 < Real.sqrt (a ^ 2 + b ^ 2) := Real.sqrt_pos.mpr hab
  have hn2 : Real.sqrt (a ^ 2 + b ^ 2) ^ 2 = a ^ 2 + b ^ 2 := Real.sq_sqrt hab.le
  have hnorm2 : Real.sqrt ((-(t : ℝ) * a) ^ 2 + (-(t : ℝ) * b) ^ 2) =
      (t : ℝ) * Real.sqrt (a ^ 2 + b ^ 2) := by
    rw [show (-(t : ℝ) * a) ^ 2 + (-(t : ℝ) * b) ^ 2 =
        (t : ℝ) ^ 2 * (a ^ 2 + b ^ 2) by ring]
    rw [Real.sqrt_mul (sq_nonneg _), Real.sqrt_sq htR.le]
  have hcos : (a * (-(t : ℝ) * a) + b * (-(t : ℝ) * b)) /
      (Real.sqrt (a ^ 2 + b ^ 2) * Real.sqrt ((-(t : ℝ) * a) ^ 2 + (-(t : ℝ) * b) ^ 2)
        + 1 / 1000000) =
      (-((t : ℝ) * (a ^ 2 + b ^ 2))) / ((t : ℝ) * (a ^ 2 + b ^ 2) + 1 / 1000000) := by
    rw [hnorm2]
    congr 1
    · ring
    · rw [show Real.sqrt (a ^ 2 + b ^ 2) * ((t : ℝ) * Real.sqrt (a ^ 2 + b ^ 2)) =
          (t : ℝ) * Real.sqrt (a ^ 2 + b ^ 2) ^ 2 by ring, hn2]
  have hS : 0 < (t : ℝ) * (a ^ 2 + b ^ 2) := mul_pos htR hab
  rw [hxR, hyR, hcos]
  apply angleFromCos_gt_90
  · rw [neg_div, neg_lt_neg_iff]
    rw [div_lt_one (by positivity)]
    norm_num
  · apply div_neg_of_neg_of_pos
    · linarith
    · positivity

/-- A triple whose first point coincides with the vertex yields exactly 90
degrees in real arithmetic (the zero numerator makes the cosine 0). -/
theorem calculate_angle_left_degenerate (p1 p2 p3 : ℚ × ℚ)
    (h1 : p1.1 = p2.1) (h2 : p1.2 = p2.2) :
    calculate_angle p1 p2 p3 = 90 := by
  simp only [calculate_angle, h1, h2, sub_self, zero_mul, add_zero, zero_add,
    zero_div]
  exact angleFromCos_zero

/-- A triple whose third point coincides with the vertex yields exactly 90
degrees in real arithmetic. -/
theorem calculate_angle_right_degenerate (p1 p2 p3 : ℚ × ℚ)
    (h1 : p3.1 = p2.1) (h2 : p3.2 = p2.2) :
    calculate_angle p1 p2 p3 = 90 := by
  simp only [calculate_angle, h1, h2, sub_self, mul_zero, add_zero, zero_add,
    zero_div]
  exact angleFromCos_zero

/-- Every angle value in a `compute_angles` profile lies in `[0, 180]`:
the clipped inverse cosine lands in `[0, 180]`, two-decimal rounding keeps
it there, and the degraded profile carries zeros. -/
theorem profile_value_bounds (kps : List Keypoint) (v : ℝ)
    (hv : v ∈ profileValues (compute_angles kps)) : 0 ≤ v ∧ v ≤ 180 := by
  unfold compute_angles at hv
  split at hv
  · simp only [profileValues, List.mem_append, List.mem_cons,
      List.not_mem_nil, or_false, List.mem_singleton] at hv
    rcases hv with ((rfl | rfl | rfl) | rfl) | rfl
    · exact round2_bounds _ (angleFromCos_nonneg _) (angleFromCos_le _)
    · exact round2_bounds _ (angleFromCos_nonneg _) (angleFromCos_le _)
    · exact round2_bounds _ (angleFromCos_nonneg _) (angleFromCos_le _)
    · exact round2_bounds _ (calculate_angle_bounds _ _ _).1
        (calculate_angle_bounds _ _ _).2
    · exact round2_bounds _ (calculate_angle_bounds _ _ _).1
        (calculate_angle_bounds _ _ _).2
  · simp only [profileValues, List.mem_append, List.mem_cons,
      List.not_mem_nil, or_false] at hv
    rcases hv with rfl | rfl | rfl <;> norm_num

/-- Claim C7: `calculate_angle` always returns a value in `[0, 180]` (the
positive `+1e-6` denominator and the clip keep the computation total, and
the inverse cosine lands in `[0, π]`); a triple with `p1` or `p3`
coinciding with the vertex yields exactly 90 degrees in real arithmetic
(near 90 in floating point) rather than raising; and every angle value in
a profile returned by `compute_angles` lies in `[0, 180]` inclusive. -/
theorem C7_angle_range :
    (∀ p1 p2 p3 : ℚ × ℚ, calculate_angle p1 p2 p3 ∈ Set.Icc (0 : ℝ) 180) ∧
    (∀ p1 p2 p3 : ℚ × ℚ, p1.1 = p2.1 → p1.2 = p2.2 →
      calculate_angle p1 p2 p3 = 90) ∧
    (∀ p1 p2 p3 : ℚ × ℚ, p3.1 = p2.1 → p3.2 = p2.2 →
      calculate_angle p1 p2 p3 = 90) ∧
    (∀ (kps : List Keypoint) (v : ℝ),
      v ∈ profileValues (compute_angles kps) → v ∈ Set.Icc (0 : ℝ) 180) := by
  refine ⟨fun p1 p2 p3 => ?_, ?_, ?_, fun kps v hv => ?_⟩
  · exact Set.mem_Icc.mpr (calculate_angle_bounds p1 p2 p3)
  · exact calculate_angle_left_degenerate
  · exact calculate_angle_right_degenerate
  · exact Set.mem_Icc.mpr (profile_value_bounds kps v hv)

/-- Witness for C7_angle_range: the empty keypoint list produces the
degraded profile, whose value 0 lies in `[0, 180]`. -/
theorem C7_witness :
    (0 : ℝ) ∈ profileValues (compute_angles []) ∧
    (0 : ℝ) ∈ Set.Icc (0 : ℝ) 180 := by
  have hmem : (0 : ℝ) ∈ profileValues (compute_angles []) := by
    simp [compute_angles, kpLookup, kpLookupByName, profileValues]
  exact ⟨hmem, C7_angle_range.2.2.2 [] 0 hmem⟩

/-- Claim C9 as stated is false: on the collinear triple
`(0,0), (1,0), (2,0)` — where `p1` and `p3` lie on strictly opposite sides
of the vertex with both difference vectors nonzero — `calculate_angle`
does not return 180: the `+1e-6` term makes the cosine `-1/(1 + 1e-6)`,
strictly above `-1`, so the angle falls strictly below 180. -/
theorem C9_counterexample :
    ((2 : ℚ) - 1 = -1 * ((0 : ℚ) - 1) ∧ (0 : ℚ) - 0 = -1 * ((0 : ℚ) - 0)) ∧
    calculate_angle (0, 0) (1, 0) (2, 0) ≠ 180 := by
  refine ⟨⟨by norm_num, by norm_num⟩, ?_⟩
  have h := calculate_angle_opposite (0, 0) (1, 0) (2, 0) 1 (by norm_num)
    (by norm_num) (by norm_num) (by norm_num)
  exact ne_of_lt h.2

/-- Claim C9 (amended): for every collinear triple in which `p1` and `p3`
lie on strictly opposite sides of the vertex (both difference vectors
nonzero, `p3 - vertex = -t * (p1 - vertex)` with `t > 0`),
`calculate_angle` returns a value strictly between 90 and 180 degrees —
never exactly 180, because the `+1e-6` denominator keeps the cosine
strictly above `-1`; 180 is only approached as the vectors grow. -/
theorem C9_opposite_collinear (p1 p2 p3 : ℚ × ℚ) (t : ℚ) (ht : 0 < t)
    (hne : ¬(p1.1 - p2.1 = 0 ∧ p1.2 - p2.2 = 0))
    (hx : p3.1 - p2.1 = -t * (p1.1 - p2.1))
    (hy : p3.2 - p2.2 = -t * (p1.2 - p2.2)) :
    90 < calculate_angle p1 p2 p3 ∧ calculate_angle p1 p2 p3 < 180 :=
  calculate_angle_opposite p1 p2 p3 t ht hne hx hy

/-- Witness for C9_opposite_collinear at the triple `(0,0), (1,0), (2,0)`
with `t = 1`. -/
theorem C9_witness :
    (0 : ℚ) < 1 ∧
    ¬(((0 : ℚ), (0 : ℚ)).1 - ((1 : ℚ), (0 : ℚ)).1 = 0 ∧
        ((0 : ℚ), (0 : ℚ)).2 - ((1 : ℚ), (0 : ℚ)).2 = 0) ∧
    90 < calculate_angle (0, 0) (1, 0) (2, 0) ∧
    calculate_angle (0, 0) (1, 0) (2, 0) < 180 := by
  refine ⟨by with_unfolding_all decide, by with_unfolding_all decide, ?_⟩
  exact C9_opposite_collinear (0, 0) (1, 0) (2, 0) 1
    (by with_unfolding_all decide) (by with_unfolding_all decide)
    (by with_unfolding_all decide) (by with_unfolding_all decide)

/-- When any of the seven required landmarks is missing, `compute_angles`
takes the `except KeyError` branch and returns the degraded all-zero
profile. -/
theorem compute_angles_degraded (kps : List Keypoint)
    (h : kpLookup kps "left_shoulder" = none ∨
      kpLookup kps "right_shoulder" = none ∨
      kpLookup kps "left_hip" = none ∨
      kpLookup kps "right_hip" = none ∨
      kpLookup kps "left_wrist" = none ∨
      kpLookup kps "left_knee" = none ∨
      kpLookup kps "left_ankle" = none) :
    compute_angles kps =
      { spineAngle := 0, armToSpineAngle := 0, armToVerticalAngle := 0 } := by
  unfold compute_angles
  split
  · rcases h with h | h | h | h | h | h | h <;> simp_all
  · rfl

/-- Claim C8: on every keypoints input lacking a required landmark (for
example the empty list), the threshold algorithm does not report an
undetermined result: the degraded all-zero profile is filtered out of the
angles dict by the truthiness check (`spine` absent), the spine defaults
to 0, and the frame is labelled `top` with confidence 1.0. -/
theorem C8_missing_landmark (kps : List Keypoint) (fi : ℤ) (vt : ℝ)
    (h : kpLookup kps "left_shoulder" = none ∨
      kpLookup kps "right_shoulder" = none ∨
      kpLookup kps "left_hip" = none ∨
      kpLookup kps "right_hip" = none ∨
      kpLookup kps "left_wrist" = none ∨
      kpLookup kps "left_knee" = none ∨
      kpLookup kps "left_ankle" = none) :
    (compute_angles_from_keypoints kps).spine = none ∧
    (PositionDetector.detect_threshold fi vt
      (compute_angles_from_keypoints kps)).detected_position = some "top" ∧
    (PositionDetector.detect_threshold fi vt
      (compute_angles_from_keypoints kps)).confidence = 1 := by
  have hdeg := compute_angles_degraded kps h
  have hspine : (compute_angles_from_keypoints kps).spine = none := by
    unfold compute_angles_from_keypoints
    rw [hdeg]
    cases hw : compute_wrist_heights kps <;> simp
  have hzero : spineOf (compute_angles_from_keypoints kps) = 0 := by
    unfold spineOf
    rw [hspine]
  refine ⟨hspine, ?_, ?_⟩
  · simp only [PositionDetector.detect_threshold, hzero]
    rw [if_pos (by norm_num : (0 : ℝ) < 25)]
  · simp only [PositionDetector.detect_threshold, hzero]
    rw [if_pos (by norm_num : (0 : ℝ) < 25)]
    norm_num

/-- Witness for C8_missing_landmark: the empty keypoint list has no
`left_shoulder`, its filtered profile has no `spine` key, and the
threshold detector labels it `top` at confidence 1. -/
theorem C8_witness :
    kpLookup [] "left_shoulder" = none ∧
    (compute_angles_from_keypoints []).spine = none ∧
    (PositionDetector.detect_threshold 0 0
      (compute_angles_from_keypoints [])).detected_position = some "top" ∧
    (PositionDetector.detect_threshold 0 0
      (compute_angles_from_keypoints [])).confidence = 1 := by
  have h0 : kpLookup [] "left_shoulder" = none := rfl
  obtain ⟨h1, h2, h3⟩ := C8_missing_landmark [] 0 0 (Or.inl h0)
  exact ⟨h0, h1, h2, h3⟩
